import Mathlib

/-!
Verification of the partition-and-join engine of the MAUDE pipeline
(openfda/maude/pipeline.py), centred on `PartionEventData.run` (the shard
partitioner) and `JoinPartitions.run` (the join orchestrator).

The embedding translates the Python source:
* CSV rows, read with `csv.reader(..., quoting=csv.QUOTE_NONE, delimiter='|')`,
  are lists of string fields (`Row`); with QUOTE_NONE no quote processing
  happens on input, so a line is exactly its fields joined by the delimiter.
* `str.isdigit` / `int(...)` / `%` become `pyIsdigit` / `pyInt` / `Nat.mod`.
* the per-row branch of the partition loop (lines 347-355) becomes
  `rowDecision`; the per-file accumulation into the `partioned` defaultdict
  and the `logging.warn` skips become `partitionRows`.
* the whole-run state (the `fh_dict` per category+shard output files with
  their headers, the function-scoped `file_category` variable, warned rows)
  becomes `RunState`, with `processFile` / `runPartition` the file loop.
* `csv.writer(..., delimiter='|')` with its default QUOTE_MINIMAL quoting
  becomes `csvWriteRow`.
* `JoinPartitions.run` (lines 374-403) becomes `JoinPartitions_run`:
  jobs are submitted with `pool.apply_async`, `pool.join` awaits them all,
  and no AsyncResult is ever inspected.
-/

namespace Maude

/-- The four record categories, `CATEGORIES = ['mdrfoi', 'patient', 'foidev',
'foitext']` in the source (line 48). -/
inductive Category where
  | mdrfoi
  | patient
  | foidev
  | foitext
deriving DecidableEq, Repr

/-- The literal name of a category, as used for filename matching. -/
def categoryName : Category → String
  | .mdrfoi => "mdrfoi"
  | .patient => "patient"
  | .foidev => "foidev"
  | .foitext => "foitext"

/-- Source line 48, in source order. -/
def CATEGORIES : List Category :=
  [Category.mdrfoi, Category.patient, Category.foidev, Category.foitext]

/-- Source line 49: filename substrings whose files are ignored entirely. -/
def IGNORE_FILES : List String := ["problem", "add", "change"]

/-- Source line 47. -/
def PARTITIONS : Nat := 32

/-- Source lines 71-75. -/
def PATIENT_KEYS : List String :=
  ["mdr_report_key",
   "patient_sequence_number",
   "date_received",
   "sequence_number_treatment",
   "sequence_number_outcome"]

/-- Source lines 77-82. -/
def TEXT_KEYS : List String :=
  ["mdr_report_key",
   "mdr_text_key",
   "text_type_code",
   "patient_sequence_number",
   "date_report",
   "text"]

/-- Source lines 84-130. -/
def DEVICE_KEYS : List String :=
  ["mdr_report_key",
   "device_event_key",
   "implant_flag",
   "date_removed_flag",
   "device_sequence_number",
   "date_received",
   "brand_name",
   "generic_name",
   "manufacturer_d_name",
   "manufacturer_d_address_1",
   "manufacturer_d_address_2",
   "manufacturer_d_city",
   "manufacturer_d_state",
   "manufacturer_d_zip_code",
   "manufacturer_d_zip_code_ext",
   "manufacturer_d_country",
   "manufacturer_d_postal_code",
   "expiration_date_of_device",
   "model_number",
   "catalog_number",
   "lot_number",
   "other_id_number",
   "device_operator",
   "device_availability",
   "date_returned_to_manufacturer",
   "device_report_product_code",
   "device_age_text",
   "device_evaluated_by_manufacturer",
   "baseline_brand_name",
   "baseline_generic_name",
   "baseline_model_number",
   "baseline_catalog_number",
   "baseline_other_id_number",
   "baseline_device_family",
   "baseline_shelf_life_contained",
   "baseline_shelf_life_in_months",
   "baseline_pma_flag",
   "baseline_pma_number",
   "baseline_510_k__flag",
   "baseline_510_k__number",
   "baseline_preamendment_flag",
   "baseline_transitional_flag",
   "baseline_510_k__exempt_flag",
   "baseline_date_first_marketed",
   "baseline_date_ceased_marketing"]

/-- Source lines 132-208. -/
def MDR_KEYS : List String :=
  ["mdr_report_key",
   "event_key",
   "report_number",
   "report_source_code",
   "manufacturer_link_flag",
   "number_devices_in_event",
   "number_patients_in_event",
   "date_received",
   "adverse_event_flag",
   "product_problem_flag",
   "date_report",
   "date_of_event",
   "reprocessed_and_reused_flag",
   "reporter_occupation_code",
   "health_professional",
   "initial_report_to_fda",
   "distributor_name",
   "distributor_address_1",
   "distributor_address_2",
   "distributor_city",
   "distributor_state",
   "distributor_zip_code",
   "distributor_zip_code_ext",
   "date_facility_aware",
   "type_of_report",
   "report_date",
   "report_to_fda",
   "date_report_to_fda",
   "event_location",
   "report_to_manufacturer",
   "date_report_to_manufacturer",
   "manufacturer_name",
   "manufacturer_address_1",
   "manufacturer_address_2",
   "manufacturer_city",
   "manufacturer_state",
   "manufacturer_zip_code",
   "manufacturer_zip_code_ext",
   "manufacturer_country",
   "manufacturer_postal_code",
   "manufacturer_contact_t_name",
   "manufacturer_contact_f_name",
   "manufacturer_contact_l_name",
   "manufacturer_contact_address_1",
   "manufacturer_contact_address_2",
   "manufacturer_contact_city",
   "manufacturer_contact_state",
   "manufacturer_contact_zip_code",
   "manufacturer_contact_zip_ext",
   "manufacturer_contact_country",
   "manufacturer_contact_postal_code",
   "manufacturer_contact_area_code",
   "manufacturer_contact_exchange",
   "manufacturer_contact_phone_number",
   "manufacturer_contact_extension",
   "manufacturer_contact_pcountry",
   "manufacturer_contact_pcity",
   "manufacturer_contact_plocal",
   "manufacturer_g1_name",
   "manufacturer_g1_address_1",
   "manufacturer_g1_address_2",
   "manufacturer_g1_city",
   "manufacturer_g1_state",
   "manufacturer_g1_zip_code",
   "manufacturer_g1_zip_code_ext",
   "manufacturer_g1_country",
   "manufacturer_g1_postal_code",
   "source_type",
   "date_manufacturer_received",
   "device_date_of_manufacturer",
   "single_use_flag",
   "remedial_action",
   "previous_use_code",
   "removal_correction_number",
   "event_type"]

/-- The `header` dictionary of `PartionEventData.run` (lines 307-311). -/
def header : Category → List String
  | .patient => PATIENT_KEYS
  | .foitext => TEXT_KEYS
  | .mdrfoi => MDR_KEYS
  | .foidev => DEVICE_KEYS

/-- A CSV row as produced by `csv.reader(..., quoting=csv.QUOTE_NONE,
delimiter='|')`: the list of the line's fields (the line split on the
delimiter, no quote processing). -/
abbrev Row := List String

/-- Python 2 `str.isdigit`: the string is non-empty and every character is a
decimal digit. -/
def pyIsdigit (s : String) : Bool :=
  !s.data.isEmpty && s.data.all Char.isDigit

/-- Python `int(...)` on a digit-only string: its base-10 value. -/
def pyInt (s : String) : Nat :=
  s.data.foldl (fun n c => 10 * n + (c.toNat - 48)) 0

/-- Whether a row's first field exists and is a valid non-negative integer
key, i.e. the Python test `row and row[0].isdigit()` (line 352). -/
def firstFieldDigit : Row → Bool
  | [] => false
  | f :: _ => pyIsdigit f

/-- The outcome of the per-row branch of the partition loop: the row is
appended to the list for one shard, silently skipped as a header, or skipped
with a `logging.warn`. -/
inductive RowDecision where
  | routed (shard : Nat)
  | skipHeader
  | skipWarn
deriving DecidableEq, Repr

/-- Lines 347-355 of the source, for the row at (0-based) index `i`:

    if (i == 0) and ('MDR_REPORT_KEY' in row): continue
    if row and row[0].isdigit():
      partioned[int(row[0]) % PARTITIONS].append(row)
    else:
      logging.warn('Skipping row: %s', row)

`'MDR_REPORT_KEY' in row` is Python list membership: some field of the row
equals the marker string.  `N` abstracts the constant `PARTITIONS`. -/
def rowDecision (N : Nat) (i : Nat) (row : Row) : RowDecision :=
  if i == 0 && row.contains "MDR_REPORT_KEY" then
    RowDecision.skipHeader
  else
    match row with
    | [] => RowDecision.skipWarn
    | f :: _ =>
      if pyIsdigit f then RowDecision.routed (pyInt f % N) else RowDecision.skipWarn

/-- The `for i, row in enumerate(file_handle)` loop of lines 346-355, started
at row index `i`.  Returns the `partioned` map (shard number to its rows, in
input order - the defaultdict of appends) together with the list of rows that
were skipped with a warning, in input order. -/
def partitionRows (N : Nat) (i : Nat) : List Row → (Nat → List Row) × List Row
  | [] => (fun _ => [], [])
  | row :: rest =>
    let r := partitionRows N (i + 1) rest
    match rowDecision N i row with
    | RowDecision.routed s => (fun t => if t = s then row :: r.1 t else r.1 t, r.2)
    | RowDecision.skipHeader => r
    | RowDecision.skipWarn => (r.1, row :: r.2)

/-- One input file's partition pass, rows enumerated from 0. -/
def partitionFile (N : Nat) (rows : List Row) : (Nat → List Row) × List Row :=
  partitionRows N 0 rows

/-- The rows of a file that the loop routes to some shard (the non-skipped,
"valid" rows), in input order, rows enumerated from `i`. -/
def validRowsFrom (N : Nat) (i : Nat) : List Row → List Row
  | [] => []
  | row :: rest =>
    match rowDecision N i row with
    | RowDecision.routed _ => row :: validRowsFrom N (i + 1) rest
    | _ => validRowsFrom N (i + 1) rest

/-- The valid (routed) rows of a file, rows enumerated from 0. -/
def validRows (N : Nat) (rows : List Row) : List Row :=
  validRowsFrom N 0 rows

/-- Whether `needle` occurs as a contiguous substring of `hay`, on character
lists.  This is Python's `needle in hay` for strings. -/
def listInfixB (needle : List Char) : List Char → Bool
  | [] => needle.isEmpty
  | c :: t => needle.isPrefixOf (c :: t) || listInfixB needle t

/-- Python's substring test `needle in hay`. -/
def pyIn (needle hay : String) : Bool :=
  listInfixB needle.data hay.data

/-- Lines 328-331: a file is skipped when any `IGNORE_FILES` entry occurs in
its (full, glob-produced) filename. -/
def ignoredFile (filename : String) : Bool :=
  IGNORE_FILES.any (fun ig => pyIn ig filename)

/-- Lines 337-339:

    for category in CATEGORIES:
      if category in filename:
        file_category = category

`file_category` is a Python function-scoped variable: it keeps the value left
by the previous file when no category name occurs in this filename, and is
unbound (`none`) when no file has matched yet.  The fold updates the
accumulator on every match, so the last matching category wins. -/
def detectCategory (filename : String) (cur : Option Category) : Option Category :=
  CATEGORIES.foldl
    (fun acc cat => if pyIn (categoryName cat) filename then some cat else acc) cur

/-- The state of `PartionEventData.run` while looping over input files:
`shards c s` is the row content of output file `s.<c>.txt` (the `fh_dict`
handles, opened for `s < N`; the model keeps a total function and the claims
quantify over `s < N`); `warned` is the accumulated list of rows logged by
`logging.warn`; `curCat` is the current value of the function-scoped
`file_category` variable. -/
structure RunState where
  shards : Category → Nat → List Row
  warned : List Row
  curCat : Option Category

/-- Lines 313-321: before any input file is read, every `s.<category>.txt`
output file is created and its category's header is written as its first
row.  `warned` is empty and `file_category` is still unbound. -/
def initState : RunState where
  shards := fun c _ => [header c]
  warned := []
  curCat := none

/-- Lines 326-365: the body of the file loop for one input file.

* ignored filename: `continue`, nothing changes (lines 328-335);
* otherwise the file is partitioned (lines 341-355) and each non-empty shard
  list is appended to `fh_dict[file_category + str(partnum)]`
  (lines 357-365).  If no category ever matched, `file_category` is unbound;
  referencing it at line 358 raises a `NameError` - which only happens when
  `partioned` is non-empty, i.e. the file had at least one routed row. -/
def processFile (N : Nat) (st : RunState) (file : String × List Row) :
    Except String RunState :=
  if ignoredFile file.1 then
    Except.ok st
  else
    let pr := partitionFile N file.2
    match detectCategory file.1 st.curCat with
    | some cat =>
      Except.ok
        { shards := fun c s =>
            if c = cat then st.shards c s ++ pr.1 s else st.shards c s,
          warned := st.warned ++ pr.2,
          curCat := some cat }
    | none =>
      if (validRows N file.2).isEmpty then
        Except.ok { shards := st.shards, warned := st.warned ++ pr.2, curCat := none }
      else
        Except.error "NameError: file_category referenced before assignment"

/-- The file loop of lines 326-365: files are processed sequentially, an
uncaught exception aborts the task. -/
def runFiles (N : Nat) (st : RunState) :
    List (String × List Row) → Except String RunState
  | [] => Except.ok st
  | file :: rest =>
    match processFile N st file with
    | Except.ok st' => runFiles N st' rest
    | Except.error e => Except.error e

/-- `PartionEventData.run`, abstracted over the shard count `N` (the source
fixes `N = PARTITIONS`) and over the discovered input files (filename and
parsed rows, in glob order). -/
def runPartition (N : Nat) (files : List (String × List Row)) :
    Except String RunState :=
  runFiles N initState files

/-- Whether Python's `csv.writer` with `delimiter='|'` and the default
QUOTE_MINIMAL quoting must quote a field: it contains the delimiter, the
quote character, or a line-terminator character. -/
def needsQuote (f : String) : Bool :=
  f.data.any (fun c => c == '|' || c == '"' || c == '\r' || c == '\n')

/-- Double every quote character (csv's default `doublequote=True`). -/
def escapeQuotes : List Char → List Char
  | [] => []
  | c :: t => if c == '"' then '"' :: '"' :: escapeQuotes t else c :: escapeQuotes t

/-- A single field as emitted by the QUOTE_MINIMAL writer. -/
def quoteField (f : String) : String :=
  if needsQuote f then
    String.mk ('"' :: escapeQuotes f.data ++ ['"'])
  else f

/-- One output line of `csv.writer(output_handle, delimiter='|')` for a row
(lines 319-320 and 359-365), without the line terminator.  A row consisting
of a single empty field is written as a quoted empty field. -/
def csvWriteRow (row : Row) : String :=
  if row = [""] then
    String.mk ['"', '"']
  else
    String.intercalate "|" (row.map quoteField)

/-- The observable outcome of `JoinPartitions.run` (lines 374-403):
which shard jobs were submitted to the pool, the outcomes those jobs ran to
(`pool.close(); pool.join()` waits for every one of them), and the task's own
terminal status. -/
structure JoinStage where
  launched : List Nat
  results : List (Except String Unit)
  status : Except String Unit
deriving Repr

/-- `JoinPartitions.run`: for every `i in range(PARTITIONS)` a join job is
submitted with `pool.apply_async(join_maude.join_maude, ...)`; `pool.close()`
and `pool.join()` then block until every submitted job has finished.  The
`AsyncResult` objects returned by `apply_async` are discarded: no `.get()` is
ever called, so a worker that raised is simply dropped and the task returns
normally whatever the job outcomes were. -/
def JoinPartitions_run (N : Nat) (jobResult : Nat → Except String Unit) : JoinStage :=
  { launched := List.range N,
    results := (List.range N).map jobResult,
    status := Except.ok () }

/-- The data rows that a category's input files (given as row lists, in glob
order) contribute to shard file `s`: the concatenation, in file order, of
each file's routed rows for shard `s`.  This is exactly what
`PartionEventData.run` appends after the header of `s.<category>.txt`. -/
def categoryShard (N : Nat) (files : List (List Row)) (s : Nat) : List Row :=
  (files.map (fun rows => (partitionFile N rows).1 s)).flatten

/-- All valid (routed) rows of a category's input files, in file order. -/
def categoryValidRows (N : Nat) (files : List (List Row)) : List Row :=
  (files.map (fun rows => validRows N rows)).flatten

/-! ### Facts about the per-row decision -/

theorem rowDecision_routed_inv {N i : Nat} {row : Row} {s : Nat}
    (h : rowDecision N i row = RowDecision.routed s) :
    ∃ f rest, row = f :: rest ∧ pyIsdigit f = true ∧ s = pyInt f % N ∧
      ¬(i = 0 ∧ row.contains "MDR_REPORT_KEY" = true) := by
  unfold rowDecision at h
  split at h
  · exact absurd h (by simp)
  · rename_i hc
    cases row with
    | nil => exact absurd h (by simp)
    | cons f rest =>
      by_cases hd : pyIsdigit f = true
      · refine ⟨f, rest, rfl, hd, ?_, ?_⟩
        · simp only [hd, if_true] at h
          exact (RowDecision.routed.injEq _ _).mp h.symm
        · rintro ⟨hi, hm⟩
          exact hc (by rw [hi, hm]; rfl)
      · simp only [Bool.not_eq_true] at hd
        simp [hd] at h

theorem rowDecision_eq_routed {N i : Nat} {f : String} {rest : List String}
    (hd : pyIsdigit f = true)
    (hh : ¬(i = 0 ∧ (f :: rest).contains "MDR_REPORT_KEY" = true)) :
    rowDecision N i (f :: rest) = RowDecision.routed (pyInt f % N) := by
  unfold rowDecision
  split
  · rename_i hc
    simp only [Bool.and_eq_true, beq_iff_eq] at hc
    exact absurd hc hh
  · simp [hd]

theorem rowDecision_skipHeader_iff {N i : Nat} {row : Row} :
    rowDecision N i row = RowDecision.skipHeader ↔
      i = 0 ∧ row.contains "MDR_REPORT_KEY" = true := by
  unfold rowDecision
  split
  · rename_i hc
    simp only [Bool.and_eq_true, beq_iff_eq] at hc
    simpa using hc
  · rename_i hc
    simp only [Bool.and_eq_true, beq_iff_eq] at hc
    constructor
    · intro h
      cases row with
      | nil => exact absurd h (by simp)
      | cons f rest =>
        by_cases hd : pyIsdigit f = true <;> simp [hd] at h
    · intro h
      exact absurd h hc

theorem rowDecision_invalid {N i : Nat} {row : Row}
    (hinv : firstFieldDigit row = false)
    (hh : ¬(i = 0 ∧ row.contains "MDR_REPORT_KEY" = true)) :
    rowDecision N i row = RowDecision.skipWarn := by
  unfold rowDecision
  split
  · rename_i hc
    simp only [Bool.and_eq_true, beq_iff_eq] at hc
    exact absurd hc hh
  · cases row with
    | nil => rfl
    | cons f rest =>
      simp only [firstFieldDigit] at hinv
      simp [hinv]

theorem rowDecision_not_routed_of_invalid {N i : Nat} {row : Row} {s : Nat}
    (hinv : firstFieldDigit row = false) :
    rowDecision N i row ≠ RowDecision.routed s := by
  intro h
  obtain ⟨f, rest, hrow, hd, -, -⟩ := rowDecision_routed_inv h
  subst hrow
  simp only [firstFieldDigit] at hinv
  rw [hinv] at hd
  exact Bool.false_ne_true hd

/-! ### Facts about the per-file partition pass -/

theorem mem_partitionRows_valid {N : Nat} :
    ∀ (rows : List Row) (i s : Nat) (r : Row),
      r ∈ (partitionRows N i rows).1 s → firstFieldDigit r = true := by
  intro rows
  induction rows with
  | nil => intro i s r h; simp [partitionRows] at h
  | cons row rest ih =>
    intro i s r h
    simp only [partitionRows] at h
    rcases hd : rowDecision N i row with s' | _ | _ <;> rw [hd] at h
    · simp only at h
      by_cases hs : s = s'
      · rw [if_pos hs] at h
        rcases List.mem_cons.mp h with h | h
        · subst h
          obtain ⟨f, rest', hrow, hdig, -, -⟩ := rowDecision_routed_inv hd
          subst hrow
          simpa [firstFieldDigit] using hdig
        · exact ih (i + 1) s r h
      · rw [if_neg hs] at h
        exact ih (i + 1) s r h
    · exact ih (i + 1) s r h
    · exact ih (i + 1) s r h

theorem partitionRows_sublist {N : Nat} :
    ∀ (rows : List Row) (i s : Nat), ((partitionRows N i rows).1 s).Sublist rows := by
  intro rows
  induction rows with
  | nil => intro i s; simp [partitionRows]
  | cons row rest ih =>
    intro i s
    simp only [partitionRows]
    rcases hd : rowDecision N i row with s' | _ | _
    · simp only
      by_cases hs : s = s'
      · rw [if_pos hs]
        exact (ih (i + 1) s).cons₂ row
      · rw [if_neg hs]
        exact (ih (i + 1) s).cons row
    · exact (ih (i + 1) s).cons row
    · exact (ih (i + 1) s).cons row

theorem mem_partitionRows_warned {N : Nat} :
    ∀ (rows : List Row) (i k : Nat) (row : Row),
      rows.get? k = some row →
      rowDecision N (i + k) row = RowDecision.skipWarn →
      row ∈ (partitionRows N i rows).2 := by
  intro rows
  induction rows with
  | nil => intro i k row h; simp at h
  | cons r0 rest ih =>
    intro i k row hget hdec
    cases k with
    | zero =>
      simp only [List.get?] at hget
      cases hget
      rw [Nat.add_zero] at hdec
      simp only [partitionRows, hdec]
      exact List.mem_cons_self _ _
    | succ k' =>
      simp only [List.get?] at hget
      have hrec : row ∈ (partitionRows N (i + 1) rest).2 := by
        apply ih (i + 1) k' row hget
        have : i + 1 + k' = i + (k' + 1) := by omega
        rw [this]
        exact hdec
      simp only [partitionRows]
      rcases hd : rowDecision N i r0 with s' | _ | _ <;> simp only
      · exact hrec
      · exact hrec
      · exact List.mem_cons_of_mem _ hrec

/-! ### Multiset bookkeeping for the round-trip property -/

theorem sum_map_zero {α : Type} (l : List α) :
    (l.map (fun _ => (0 : Multiset Row))).sum = 0 := by
  induction l with
  | nil => simp
  | cons a t ih => simp [ih]

theorem sum_map_add {α : Type} (l : List α) (f g : α → Multiset Row) :
    (l.map (fun a => f a + g a)).sum = (l.map f).sum + (l.map g).sum := by
  induction l with
  | nil => simp
  | cons a t ih =>
    simp only [List.map_cons, List.sum_cons, ih, add_add_add_comm]

theorem sum_map_update (ns : List Nat) (M : Nat → Multiset Row) (s₀ : Nat) (row : Row)
    (hnd : ns.Nodup) (hmem : s₀ ∈ ns) :
    (ns.map (fun s => if s = s₀ then row ::ₘ M s else M s)).sum
      = row ::ₘ (ns.map M).sum := by
  induction ns with
  | nil => simp at hmem
  | cons n t ih =>
    rcases List.nodup_cons.mp hnd with ⟨hn, hnd'⟩
    rcases List.mem_cons.mp hmem with h | h
    · subst h
      simp only [List.map_cons, List.sum_cons]
      have heq : t.map (fun s => if s = s₀ then row ::ₘ M s else M s) = t.map M := by
        apply List.map_congr_left
        intro s hs
        rw [if_neg]
        intro he
        rw [he] at hs
        exact hn hs
      rw [heq, if_pos trivial, Multiset.cons_add]
    · have hne : n ≠ s₀ := by
        intro he
        rw [he] at hn
        exact hn h
      simp only [List.map_cons, List.sum_cons, if_neg hne]
      rw [ih hnd' h, ← Multiset.singleton_add, ← Multiset.singleton_add, add_left_comm]

theorem ofList_cons (a : Row) (l : List Row) :
    Multiset.ofList (a :: l) = a ::ₘ Multiset.ofList l := rfl

theorem ofList_append (l m : List Row) :
    Multiset.ofList (l ++ m) = Multiset.ofList l + Multiset.ofList m := rfl

theorem coe_flatten (L : List (List Row)) :
    Multiset.ofList L.flatten = (L.map Multiset.ofList).sum := by
  induction L with
  | nil => rfl
  | cons l t ih =>
    rw [List.flatten_cons, List.map_cons, List.sum_cons, ← ih, ofList_append]

theorem sum_map_sum_comm (ns : List Nat) (fs : List (List Row))
    (g : List Row → Nat → Multiset Row) :
    (ns.map (fun s => (fs.map (fun f => g f s)).sum)).sum
      = (fs.map (fun f => (ns.map (fun s => g f s)).sum)).sum := by
  induction ns with
  | nil => simp [sum_map_zero]
  | cons n t ih =>
    simp only [List.map_cons, List.sum_cons, ih]
    rw [← sum_map_add]

theorem partitionRows_sum {N : Nat} (hN : 0 < N) :
    ∀ (rows : List Row) (i : Nat),
      ((List.range N).map
        (fun s => Multiset.ofList ((partitionRows N i rows).1 s))).sum
        = Multiset.ofList (validRowsFrom N i rows) := by
  intro rows
  induction rows with
  | nil =>
    intro i
    simp only [partitionRows, validRowsFrom]
    exact sum_map_zero _
  | cons row rest ih =>
    intro i
    simp only [partitionRows, validRowsFrom]
    rcases hd : rowDecision N i row with s₀ | _ | _
    · simp only
      obtain ⟨f, r', hrow, hdig, hs₀, -⟩ := rowDecision_routed_inv hd
      have hlt : s₀ < N := by
        rw [hs₀]
        exact Nat.mod_lt _ hN
      simp only [apply_ite Multiset.ofList, ofList_cons]
      rw [sum_map_update _ _ _ _ (List.nodup_range N) (List.mem_range.mpr hlt),
        ih (i + 1), ← ofList_cons]
    · exact ih (i + 1)
    · exact ih (i + 1)

/-! ### Run-level invariants -/

theorem head?_append_left {l m : List Row} {a : Row} (h : l.head? = some a) :
    (l ++ m).head? = some a := by
  cases l with
  | nil => simp at h
  | cons x t => simpa using h

theorem runFiles_inv {N : Nat} (P : RunState → Prop)
    (hstep : ∀ st file st', P st → processFile N st file = Except.ok st' → P st') :
    ∀ (files : List (String × List Row)) (st st' : RunState),
      runFiles N st files = Except.ok st' → P st → P st' := by
  intro files
  induction files with
  | nil =>
    intro st st' h hP
    simp only [runFiles] at h
    have := Except.ok.inj h
    rw [← this]
    exact hP
  | cons file rest ih =>
    intro st st' h hP
    simp only [runFiles] at h
    cases hpf : processFile N st file with
    | ok mid =>
      rw [hpf] at h
      exact ih mid st' h (hstep st file mid hP hpf)
    | error e =>
      rw [hpf] at h
      exact absurd h (by simp)

theorem processFile_shards_cases {N : Nat} {st st' : RunState}
    {file : String × List Row}
    (h : processFile N st file = Except.ok st') (c : Category) (s : Nat) :
    st'.shards c s = st.shards c s ∨
      st'.shards c s = st.shards c s ++ (partitionFile N file.2).1 s := by
  unfold processFile at h
  split at h
  · rw [← Except.ok.inj h]
    exact Or.inl rfl
  · split at h
    · rename_i cat hcat
      rw [← Except.ok.inj h]
      simp only
      by_cases hc : c = cat
      · rw [if_pos hc]
        exact Or.inr rfl
      · rw [if_neg hc]
        exact Or.inl rfl
    · split at h
      · rw [← Except.ok.inj h]
        exact Or.inl rfl
      · exact absurd h (by simp)

theorem runFiles_head {N : Nat} (files : List (String × List Row))
    (st st' : RunState) (hrun : runFiles N st files = Except.ok st')
    (hP : ∀ c s, (st.shards c s).head? = some (header c)) :
    ∀ c s, (st'.shards c s).head? = some (header c) := by
  refine runFiles_inv (fun st => ∀ c s, (st.shards c s).head? = some (header c))
    ?_ files st st' hrun hP
  intro st₀ file st₁ hP₀ hpf c s
  rcases processFile_shards_cases hpf c s with h | h
  · rw [h]
    exact hP₀ c s
  · rw [h]
    exact head?_append_left (hP₀ c s)

theorem runFiles_mem_valid {N : Nat} (files : List (String × List Row))
    (st st' : RunState) (hrun : runFiles N st files = Except.ok st')
    (hP : ∀ c s r, r ∈ st.shards c s → r = header c ∨ firstFieldDigit r = true) :
    ∀ c s r, r ∈ st'.shards c s → r = header c ∨ firstFieldDigit r = true := by
  refine runFiles_inv
    (fun st => ∀ c s r, r ∈ st.shards c s → r = header c ∨ firstFieldDigit r = true)
    ?_ files st st' hrun hP
  intro st₀ file st₁ hP₀ hpf c s r hr
  rcases processFile_shards_cases hpf c s with h | h
  · rw [h] at hr
    exact hP₀ c s r hr
  · rw [h] at hr
    rcases List.mem_append.mp hr with hr | hr
    · exact hP₀ c s r hr
    · exact Or.inr (mem_partitionRows_valid _ 0 s r hr)

/-! ### The claims -/

/-- Claim C1 (corrected).  A row whose first field is a valid non-negative
integer key `k` is routed to exactly one shard, `k mod PARTITIONS` - except
when it is the first row of its file and some field equals the header marker
`MDR_REPORT_KEY`, in which case the header check of line 349 skips it before
the key is ever examined (see the counterexample). -/
theorem valid_key_row_routed_unless_header_marker (i : Nat) (f : String)
    (rest : List String) (hdig : pyIsdigit f = true)
    (hnh : ¬(i = 0 ∧ (f :: rest).contains "MDR_REPORT_KEY" = true)) :
    rowDecision PARTITIONS i (f :: rest)
      = RowDecision.routed (pyInt f % PARTITIONS) :=
  rowDecision_eq_routed hdig hnh

theorem valid_key_row_routed_unless_header_marker_witness :
    rowDecision PARTITIONS 3 ["70", "x"] = RowDecision.routed 6 :=
  valid_key_row_routed_unless_header_marker 3 "70" ["x"] (by decide) (by decide)

/-- Claim C1, counterexample to the claim as stated: the first row of a file
whose first field is the valid key `8` but which carries the marker token in
its second field is skipped as a header and routed to no shard at all. -/
theorem first_row_with_marker_not_routed :
    pyIsdigit "8" = true ∧
      rowDecision PARTITIONS 0 ["8", "MDR_REPORT_KEY"] = RowDecision.skipHeader := by
  decide

/-- Claim C2 (confirmed).  Whenever `PartionEventData.run` completes, every
shard file of every category starts with that category's fixed header: the
headers are written when the N by 4 output files are created, before any
input file is read, and data rows are only ever appended after them. -/
theorem shard_file_first_line_is_header (N : Nat) (files : List (String × List Row))
    (st : RunState) (hrun : runPartition N files = Except.ok st)
    (c : Category) (s : Nat) (_hs : s < N) :
    (st.shards c s).head? = some (header c) :=
  runFiles_head files initState st hrun (fun _ _ => rfl) c s

theorem shard_file_first_line_is_header_witness :
    (initState.shards Category.patient 0).head? = some (header Category.patient) :=
  shard_file_first_line_is_header 1 [] initState rfl Category.patient 0 (by decide)

/-- Claim C3 (confirmed).  For any shard count N > 0, the data rows of the N
shard files of one category, taken together, are exactly the multiset of the
valid (routed, non-skipped) rows of that category's input files: no valid row
is lost or duplicated and no skipped row appears. -/
theorem partition_roundtrip_multiset (N : Nat) (hN : 0 < N)
    (files : List (List Row)) :
    Multiset.ofList ((List.range N).map (categoryShard N files)).flatten
      = Multiset.ofList (categoryValidRows N files) := by
  unfold categoryShard categoryValidRows
  simp only [coe_flatten, List.map_map, Function.comp_def]
  rw [sum_map_sum_comm (List.range N) files
    (fun rows s => Multiset.ofList ((partitionFile N rows).1 s))]
  apply congrArg List.sum
  apply List.map_congr_left
  intro rows _
  exact partitionRows_sum hN rows 0

theorem partition_roundtrip_multiset_witness :
    (0 : Nat) < 2 ∧
      Multiset.ofList
          ((List.range 2).map (categoryShard 2 [[["3", "a"], ["4", "b"], ["abc"]]])).flatten
        = Multiset.ofList (categoryValidRows 2 [[["3", "a"], ["4", "b"], ["abc"]]]) :=
  ⟨by decide, partition_roundtrip_multiset 2 (by decide) _⟩

/-- Claim C4 (corrected).  A routed row is written delimiter-joined; it is
byte-for-byte the input row as long as no field contains a quote character
(or CR/LF).  The writer, however, runs with csv's default QUOTE_MINIMAL
quoting (the source sets only `delimiter='|'` at line 359), so a field
containing a quote character is re-quoted on output and is then not verbatim
(see the counterexample). -/
theorem row_written_verbatim_without_quotable_chars (row : Row)
    (hq : ∀ f ∈ row, needsQuote f = false) (hne : row ≠ [""]) :
    csvWriteRow row = String.intercalate "|" row := by
  unfold csvWriteRow
  rw [if_neg hne]
  have hmap : row.map quoteField = row := by
    conv_rhs => rw [← List.map_id row]
    apply List.map_congr_left
    intro f hf
    unfold quoteField
    rw [hq f hf]
    rfl
  rw [hmap]

theorem row_written_verbatim_without_quotable_chars_witness :
    csvWriteRow ["5", "hello world"] = String.intercalate "|" ["5", "hello world"] :=
  row_written_verbatim_without_quotable_chars _ (by decide) (by decide)

/-- Claim C4, counterexample to the claim as stated: a row with a quote
character in a field is not appended verbatim - QUOTE_MINIMAL wraps the field
in quotes and doubles the embedded quote. -/
theorem row_with_quote_char_not_verbatim :
    csvWriteRow ["7", "say \"hi\""] ≠ String.intercalate "|" ["7", "say \"hi\""] := by
  decide

/-- Claim C5 (corrected).  A row is skipped as a source header if and only if
it is the first row (index 0) of its file and the marker token occurs as ANY
field of the row - Python's `'MDR_REPORT_KEY' in row` is list membership, not
a first-field check (see the counterexample).  A true foreign header row
(first field equal to the marker) is still never routed into any shard. -/
theorem header_skip_iff_first_row_contains_marker (N i : Nat) (row : Row) :
    (rowDecision N i row = RowDecision.skipHeader ↔
        i = 0 ∧ row.contains "MDR_REPORT_KEY" = true)
    ∧ (row.head? = some "MDR_REPORT_KEY" →
        ∀ s, rowDecision N i row ≠ RowDecision.routed s) := by
  constructor
  · exact rowDecision_skipHeader_iff
  · intro hh s
    apply rowDecision_not_routed_of_invalid
    cases row with
    | nil => simp at hh
    | cons f t =>
      simp only [List.head?_cons, Option.some.injEq] at hh
      subst hh
      exact (by decide : pyIsdigit "MDR_REPORT_KEY" = false)

theorem header_skip_iff_first_row_contains_marker_witness :
    rowDecision PARTITIONS 0 ["MDR_REPORT_KEY", "EVENT_KEY"] = RowDecision.skipHeader
    ∧ rowDecision PARTITIONS 4 ["MDR_REPORT_KEY", "55"] ≠ RowDecision.routed 7 :=
  ⟨(header_skip_iff_first_row_contains_marker PARTITIONS 0 _).1.mpr (by decide),
   (header_skip_iff_first_row_contains_marker PARTITIONS 4 _).2 (by decide) 7⟩

/-- Claim C5, counterexample to the claim as stated: a first row whose first
field is the plain key `123` is nevertheless skipped as a header because the
marker token occurs in its second field. -/
theorem header_skip_despite_marker_not_first_field :
    rowDecision PARTITIONS 0 ["123", "MDR_REPORT_KEY"] = RowDecision.skipHeader
    ∧ ["123", "MDR_REPORT_KEY"].head? ≠ some "MDR_REPORT_KEY"
    ∧ pyIsdigit "123" = true := by
  decide

/-- Claim C6 (corrected).  A row whose first field is not a valid
non-negative integer key is skipped: it is never routed, never appears among
any shard's partitioned data rows (in a completed run it can occur in a shard
file only as the header line), and - unless it was silently skipped by the
index-0 header check - it is logged with a warning.  The header-skipped case
gets no warning (see the counterexample). -/
theorem invalid_key_row_skipped_and_warned_unless_header (N i : Nat) (row : Row)
    (hinv : firstFieldDigit row = false)
    (hnh : ¬(i = 0 ∧ row.contains "MDR_REPORT_KEY" = true)) :
    rowDecision N i row = RowDecision.skipWarn
    ∧ (∀ rows s, row ∉ (partitionFile N rows).1 s)
    ∧ (∀ rows : List Row, rows.get? i = some row → row ∈ (partitionFile N rows).2)
    ∧ (∀ files st c s, runPartition N files = Except.ok st →
        row ∈ st.shards c s → row = header c) := by
  refine ⟨rowDecision_invalid hinv hnh, ?_, ?_, ?_⟩
  · intro rows s hmem
    have hv := mem_partitionRows_valid rows 0 s row hmem
    rw [hinv] at hv
    exact Bool.false_ne_true hv
  · intro rows hget
    refine mem_partitionRows_warned rows 0 i row hget ?_
    rw [Nat.zero_add]
    exact rowDecision_invalid hinv hnh
  · intro files st c s hrun hmem
    rcases runFiles_mem_valid files initState st hrun
        (fun c s r hr => Or.inl (List.mem_singleton.mp hr)) c s row hmem with h | h
    · exact h
    · rw [hinv] at h
      exact absurd h Bool.false_ne_true

theorem invalid_key_row_skipped_and_warned_unless_header_witness :
    rowDecision 32 1 ["abc"] = RowDecision.skipWarn
    ∧ ["abc"] ∈ (partitionFile 32 [["5", "x"], ["abc"]]).2 :=
  ⟨(invalid_key_row_skipped_and_warned_unless_header 32 1 ["abc"]
      (by decide) (by decide)).1,
   (invalid_key_row_skipped_and_warned_unless_header 32 1 ["abc"]
      (by decide) (by decide)).2.2.1 _ (by decide)⟩

/-- Claim C6, counterexample to the claim as stated: the genuine source
header row has a non-digit first field, yet processing it emits NO warning -
it is silently skipped by the header check, so `warned` stays empty. -/
theorem header_row_skipped_without_warning :
    firstFieldDigit ["MDR_REPORT_KEY", "EVENT_KEY"] = false
    ∧ (partitionFile 32 [["MDR_REPORT_KEY", "EVENT_KEY"]]).2 = []
    ∧ (runPartition 32 [("events/mdrfoi.txt", [["MDR_REPORT_KEY", "EVENT_KEY"]])]).toOption.map
          (fun st => st.warned)
        = some [] := by
  decide

/-- Claim C7 (corrected).  `JoinPartitions.run` submits all N shard jobs and
`pool.join` waits for every one of them before the task returns (and a
failing job, being an isolated pool worker, does not crash its siblings) -
but the AsyncResults of `apply_async` are discarded, no `.get()` is ever
called, so job failures are never collected: the stage terminates as done
whatever the job outcomes were (see the counterexample). -/
theorem join_stage_completes_regardless_of_job_failures (N : Nat)
    (jobResult : Nat → Except String Unit) :
    (JoinPartitions_run N jobResult).launched = List.range N
    ∧ (JoinPartitions_run N jobResult).results = (List.range N).map jobResult
    ∧ (JoinPartitions_run N jobResult).status = Except.ok () :=
  ⟨rfl, rfl, rfl⟩

/-- Claim C7, counterexample to the claim as stated: even when every shard's
join job fails, the orchestrator still signals the stage as done and reports
no failure. -/
theorem join_stage_done_despite_all_jobs_failing :
    (JoinPartitions_run PARTITIONS (fun _ => Except.error "join worker failed")).status
      = Except.ok () := rfl

/-- Claim C8 (corrected).  A file whose name contains an ignored substring is
skipped entirely.  A non-ignored file is processed under the category that
`file_category` holds after the matching loop: the LAST category whose name
occurs in the filename, or - because the variable survives across loop
iterations - the category of a PREVIOUS file when this filename matches no
category at all (see the counterexample; with no previous match the run dies
with a NameError instead).  All its valid rows are appended to that single
category's shard files and to no other category. -/
theorem file_ignore_and_category_attribution (N : Nat) (st : RunState)
    (name : String) (rows : List Row) :
    (ignoredFile name = true → processFile N st (name, rows) = Except.ok st)
    ∧ (∀ cat : Category, ignoredFile name = false →
        detectCategory name st.curCat = some cat →
        ∃ st', processFile N st (name, rows) = Except.ok st'
          ∧ st'.curCat = some cat
          ∧ (∀ c s, c ≠ cat → st'.shards c s = st.shards c s)
          ∧ (∀ s, st'.shards cat s = st.shards cat s ++ (partitionFile N rows).1 s)) := by
  constructor
  · intro hig
    simp only [processFile]
    rw [if_pos hig]
  · intro cat hig hcat
    simp only [processFile]
    rw [if_neg (by simp [hig]), hcat]
    refine ⟨_, rfl, rfl, ?_, ?_⟩
    · intro c s hne
      simp only
      rw [if_neg hne]
    · intro s
      simp only
      rw [if_pos trivial]

theorem file_ignore_and_category_attribution_witness :
    processFile 32 initState ("events/foidevproblem.txt", [["9", "z"]])
        = Except.ok initState
    ∧ ∃ st', processFile 32 initState ("events/foitext2020.txt", [["9", "z"]])
          = Except.ok st'
        ∧ st'.curCat = some Category.foitext
        ∧ (∀ c s, c ≠ Category.foitext → st'.shards c s = initState.shards c s)
        ∧ (∀ s, st'.shards Category.foitext s
            = initState.shards Category.foitext s ++ (partitionFile 32 [["9", "z"]]).1 s) :=
  ⟨(file_ignore_and_category_attribution 32 initState "events/foidevproblem.txt"
      [["9", "z"]]).1 (by decide),
   (file_ignore_and_category_attribution 32 initState "events/foitext2020.txt"
      [["9", "z"]]).2 Category.foitext (by decide) (by decide)⟩

/-- Claim C8, counterexample to the claim as stated: `events/summary.txt`
matches no category name and is not ignored, yet its valid row `["4", "y"]`
is written into the mdrfoi shard files - the stale `file_category` left by
the previous file attributes it, not a filename match. -/
theorem uncategorized_file_rows_leak_into_previous_category :
    pyIn "mdrfoi" "events/summary.txt" = false
    ∧ pyIn "patient" "events/summary.txt" = false
    ∧ pyIn "foidev" "events/summary.txt" = false
    ∧ pyIn "foitext" "events/summary.txt" = false
    ∧ ignoredFile "events/summary.txt" = false
    ∧ (runPartition 32 [("events/mdrfoi2020.txt", [["3", "x"]]),
          ("events/summary.txt", [["4", "y"]])]).toOption.map
          (fun st => st.shards Category.mdrfoi 4)
        = some [header Category.mdrfoi, ["4", "y"]] := by
  decide

/-- Claim C9 (confirmed).  The rows one input file contributes to one shard
are a subsequence of that file's rows: their relative input order is
preserved (they are also written contiguously, in one `writerows` call). -/
theorem shard_rows_preserve_input_file_order (N : Nat) (rows : List Row) (s : Nat) :
    ((partitionFile N rows).1 s).Sublist rows :=
  partitionRows_sublist rows 0 s

/-- Claim C10 (confirmed).  Row routing is total: every row - of any length,
including the empty row, which the `row and row[0].isdigit()` guard rejects
before `row[0]` is evaluated - is either routed to a single shard or skipped;
no row shape escapes these three outcomes. -/
theorem row_routing_total (N i : Nat) (row : Row) :
    ((∃ s, rowDecision N i row = RowDecision.routed s)
      ∨ rowDecision N i row = RowDecision.skipHeader
      ∨ rowDecision N i row = RowDecision.skipWarn)
    ∧ rowDecision N i [] = RowDecision.skipWarn := by
  constructor
  · rcases h : rowDecision N i row with s | _ | _
    · exact Or.inl ⟨s, rfl⟩
    · exact Or.inr (Or.inl rfl)
    · exact Or.inr (Or.inr rfl)
  · unfold rowDecision
    split
    · rename_i hc
      simp at hc
    · rfl

end Maude
